import Mathlib

/-!
Shallow embedding of the evohome integration core: the schedule-to-setpoint
projector (EvoChild.setpoints), the dual-source update coordinator
(EvoBroker._update_v1_api_temps, _update_v2_api_state, async_update), the
login/index check (EvoBroker.login), credential loading
(EvoBroker.load_auth_tokens) and the per-device temperature resolution
(EvoChild.current_temperature).

Modelling conventions:
- times of day are seconds since midnight; the source compares zero-padded
  HH:MM:SS strings lexicographically, which coincides with numeric comparison
  of seconds since midnight;
- absolute instants are integer seconds; dates are integer epoch days; adding
  timedelta(days = k) to the reference adds k to the epoch day;
- temperatures are rationals standing in for Python floats (no float
  arithmetic occurs in the modelled code, values are only stored and compared);
- Python dict[str, float | None].get is modelled on association lists, with a
  missing key and a stored None both yielding none;
- awaited library calls are modelled by passing in their outcome as data; the
  mutation they perform on the client object (a freshly minted session id or
  access token) travels with the outcome.
-/

/-- A switchpoint's effective value: a heating setpoint (SZ_HEAT_SETPOINT) or
a DHW state string (the source tries the temperature key first and falls back
to DhwState on KeyError); mutually exclusive per switchpoint. -/
inductive SpValue where
  | heat (t : Rat)
  | dhw (s : String)
deriving DecidableEq

/-- One switchpoint of a day schedule: a TimeOfDay (seconds since midnight)
and an effective value. -/
structure Switchpoint where
  timeOfDay : Nat
  value : SpValue
deriving DecidableEq

/-- One day-entry of DailySchedules: an ordered list of switchpoints. -/
structure DayEntry where
  switchpoints : List Switchpoint
deriving DecidableEq

/-- The reference instant dt_util.now() as seen by the projector: its local
calendar date (epoch day) and its local time of day in seconds. -/
structure RefInstant where
  epochDay : Int
  timeOfDay : Nat
deriving DecidableEq

/-- day_time.weekday() with Monday = 0: epoch day 0 (1970-01-01) was a
Thursday, weekday 3. -/
def weekday (epochDay : Int) : Nat :=
  ((epochDay + 3) % 7).toNat

/-- Python list indexing day["Switchpoints"][idx]: a nonnegative index reads
from the front, a negative index reads from the back (so -1 is the last
element), and an out-of-range index raises IndexError, modelled as none. -/
def pyGet (l : List α) (i : Int) : Option α :=
  if 0 ≤ i then l.get? i.toNat
  else if (-i).toNat ≤ l.length then l.get? (l.length - (-i).toNat)
  else none

/-- The scan loop of EvoChild.setpoints: starting from sp_idx = -1, advance
sp_idx to each index i while time_of_day > switchpoint.TimeOfDay holds, and
break at the first switchpoint where it does not; the loop leaves sp_idx equal
to the number of leading switchpoints with TimeOfDay strictly below the
reference, minus one.  countLt computes that leading count. -/
def countLt (tod : Nat) : List Switchpoint → Nat
  | [] => 0
  | sp :: rest => if tod > sp.timeOfDay then countLt tod rest + 1 else 0

/-- sp_idx after the scan loop. -/
def spIdx (tod : Nat) (sps : List Switchpoint) : Int :=
  (countLt tod sps : Int) - 1

/-- this_sp_day = -1 if sp_idx == -1 else 0. -/
def thisSpDay (i : Int) : Int := if i = -1 then -1 else 0

/-- next_sp_day = 1 if sp_idx + 1 == len(switchpoints) else 0. -/
def nextSpDay (i : Int) (n : Nat) : Int := if i + 1 = n then 1 else 0

/-- _dt_evo_to_aware: interpret the naive instant as UTC and subtract the
location UTC offset; dt_util.as_local only changes the representation, not
the absolute instant, so the result is the shifted absolute instant. -/
def dtEvoToAware (naiveInstant utcOffset : Int) : Int :=
  naiveInstant - utcOffset

/-- One projected setpoint: the key_sp_from instant and the switchpoint's
effective value (key_sp_temp or key_sp_state). -/
structure SetpointInfo where
  spFrom : Int
  value : SpValue
deriving DecidableEq

/-- The projected pair written into self._setpoints. -/
structure Setpoints where
  thisSp : SetpointInfo
  nextSp : SetpointInfo
deriving DecidableEq

/-- The body of the for key, offset, idx loop of EvoChild.setpoints: pick
day = schedule[(day_of_week + offset) % 7], switchpoint = Switchpoints[idx],
combine (reference date + offset days) with the switchpoint TimeOfDay as a
naive instant, and correct it by the location UTC offset. -/
def projectOne (schedule : List DayEntry) (epochDay : Int) (dow : Nat)
    (utcOffset : Int) (offset idx : Int) : Option SetpointInfo := do
  let d ← schedule.get? (((dow : Int) + offset) % 7).toNat
  let sp ← pyGet d.switchpoints idx
  pure ⟨dtEvoToAware ((epochDay + offset) * 86400 + sp.timeOfDay) utcOffset, sp.value⟩

/-- EvoChild.setpoints: empty DailySchedules gives an empty projection; any
IndexError (schedule[day_of_week], a day picked by (day_of_week + offset) % 7
beyond the list, or an out-of-range switchpoint index) resets the projection
to empty, modelled as none. -/
def setpoints (schedule : List DayEntry) (dayTime : RefInstant)
    (utcOffset : Int) : Option Setpoints :=
  if schedule.isEmpty then none
  else do
    let dow := weekday dayTime.epochDay
    let day ← schedule.get? dow
    let i := spIdx dayTime.timeOfDay day.switchpoints
    let oT := thisSpDay i
    let oN := nextSpDay i day.switchpoints.length
    let sThis ← projectOne schedule dayTime.epochDay dow utcOffset oT i
    let sNext ← projectOne schedule dayTime.epochDay dow utcOffset oN ((i + 1) * (1 - oN))
    pure ⟨sThis, sNext⟩

/-- The v1 (legacy) client handle: after a remote call it carries whatever
session id the library holds (client_v1.broker.session_id). -/
structure ClientV1 where
  sessionId : Option String
deriving DecidableEq

/-- EvoBroker mutable state touched by the update cycle: the optional legacy
client (None once permanently disabled), the high-precision temperature cache,
the v2-configured location id, the v2 access token and the last status blob. -/
structure BrokerState where
  clientV1 : Option ClientV1
  temps : List (String × Option Rat)
  locLocationId : String
  accessToken : String
  status : Option String
deriving DecidableEq

/-- Observable side effects of a cycle, in order of occurrence. -/
inductive Act where
  | warnSchema
  | warnRequestFailed
  | warnLocMismatch
  | dispatchSend
  | saveAuthTokens
  | fetchV1
deriving DecidableEq

/-- Outcome of awaiting client_v1.get_temperatures(); each outcome carries
the session id the client holds after the call (the library may have minted a
new one even on a failing call, before the failure). -/
inductive V1FetchResult where
  | invalidSchema (newSid : Option String)
  | requestFailed (newSid : Option String)
  | otherExc (newSid : Option String)
  | success (newTemps : List (String × Option Rat)) (newLocId : String)
      (newSid : Option String)
deriving DecidableEq

/-- The session id held by the client after the call. -/
def V1FetchResult.newSidOf : V1FetchResult → Option String
  | .invalidSchema sid => sid
  | .requestFailed sid => sid
  | .otherExc sid => sid
  | .success _ _ sid => sid

/-- EvoBroker._update_v1_api_temps, given the pre-call client (the assert
guarantees it is set) and the call outcome.  InvalidSchema: warn and set
client_v1 to None (temps are left as they are).  RequestFailed: warn and
clear temps.  Any other exception: clear temps and re-raise.  Success with a
location mismatch: warn and set client_v1 to None; otherwise store the fetched
temperatures.  The finally block persists credentials when client_v1 is still
set and its session id differs from the pre-call snapshot. -/
def updateV1ApiTemps (st : BrokerState) (c : ClientV1) (res : V1FetchResult) :
    BrokerState × List Act :=
  let sessionId := c.sessionId
  let stepped : BrokerState × List Act :=
    match res with
    | .invalidSchema _ =>
        ({ st with clientV1 := none }, [.warnSchema])
    | .requestFailed sid =>
        ({ st with clientV1 := some ⟨sid⟩, temps := [] }, [.warnRequestFailed])
    | .otherExc sid =>
        ({ st with clientV1 := some ⟨sid⟩, temps := [] }, [])
    | .success newTemps newLocId sid =>
        if newLocId ≠ st.locLocationId then
          ({ st with clientV1 := none }, [.warnLocMismatch])
        else
          ({ st with clientV1 := some ⟨sid⟩, temps := newTemps }, [])
  match stepped.1.clientV1 with
  | some c2 =>
      if sessionId ≠ c2.sessionId then (stepped.1, stepped.2 ++ [.saveAuthTokens])
      else stepped
  | none => stepped

/-- Outcome of awaiting loc.refresh_status(); each outcome carries the access
token the v2 client holds after the call. -/
inductive V2Result where
  | requestFailed (newTok : String)
  | ok (newStatus : String) (newTok : String)
deriving DecidableEq

/-- The access token held by the v2 client after the call. -/
def V2Result.newTokOf : V2Result → String
  | .requestFailed tok => tok
  | .ok _ tok => tok

/-- EvoBroker._update_v2_api_state: snapshot the access token, refresh the
status; on RequestFailed only handle_exception (the stored status and temps
stay as they were, nothing is dispatched); on success store the status and
broadcast via async_dispatcher_send; finally persist credentials when the
access token changed during the call. -/
def updateV2ApiState (st : BrokerState) (res : V2Result) :
    BrokerState × List Act :=
  let accessToken := st.accessToken
  let stepped : BrokerState × List Act :=
    match res with
    | .requestFailed tok =>
        ({ st with accessToken := tok }, [])
    | .ok newStatus tok =>
        ({ st with accessToken := tok, status := some newStatus }, [.dispatchSend])
  if accessToken ≠ stepped.1.accessToken then (stepped.1, stepped.2 ++ [.saveAuthTokens])
  else stepped

/-- The remote outcomes one async_update cycle can observe: the v2 refresh
outcome, and the v1 fetch outcome (consulted only when the legacy client is
still set). -/
structure CycleInput where
  v2 : V2Result
  v1 : V1FetchResult
deriving DecidableEq

/-- EvoBroker.async_update: run the v2 state update, then, only if client_v1
is (still) truthy, attempt the legacy temperature fetch (the attempt itself is
recorded as Act.fetchV1). -/
def asyncUpdate (st : BrokerState) (inp : CycleInput) : BrokerState × List Act :=
  let r2 := updateV2ApiState st inp.v2
  match r2.1.clientV1 with
  | some c =>
      let r1 := updateV1ApiTemps r2.1 c inp.v1
      (r1.1, r2.2 ++ [Act.fetchV1] ++ r1.2)
  | none => r2

/-- A sequence of polling cycles driven by the coordinator, accumulating the
trace of observable actions. -/
def runCycles (st : BrokerState) : List CycleInput → BrokerState × List Act
  | [] => (st, [])
  | inp :: rest =>
      let r := asyncUpdate st inp
      let rr := runCycles r.1 rest
      (rr.1, r.2 ++ rr.2)

/-- The environment EvoBroker.login sees: whether the remote
client.login() call succeeds, and len(client.installation_info). -/
structure LoginEnv where
  remoteLoginOk : Bool
  installationCount : Nat
deriving DecidableEq

/-- Result of EvoBroker.login. -/
inductive LoginOutcome where
  | ok
  | authFailed (msg : String)
deriving DecidableEq

/-- The remediation message raised on an out-of-range location index (the
source quotes the config key name; quotes elided). -/
def locIdxErrorMsg (locIdx count : Nat) : String :=
  "Config error: location_idx = " ++ toString locIdx ++
    ", but the valid range is 0-" ++ toString ((count : Int) - 1) ++
    ". Unable to continue. Fix any configuration errors and restart HA"

/-- EvoBroker.login: load tokens and call client.login (a failure is
re-raised after handle_exception); on success index installation_info at
loc_idx, and on IndexError raise AuthenticationFailed with the remediation
message; only after the index check passes are credentials saved. -/
def login (locIdx : Nat) (env : LoginEnv) : LoginOutcome × List Act :=
  if ¬env.remoteLoginOk then (.authFailed "remote login failed", [])
  else if locIdx < env.installationCount then (.ok, [.saveAuthTokens])
  else (.authFailed (locIdxErrorMsg locIdx env.installationCount), [])

/-- The persisted store record as load_auth_tokens reads it: every field
optional (the store may hold {} or miss keys); sessionId is USER_DATA's
session_id entry; the access-token expiry is an absolute instant (the
aware-to-naive conversion at the boundary changes representation only). -/
structure StoredRecord where
  username : Option String
  refreshToken : Option String
  accessToken : Option String
  accessTokenExpires : Option Int
  sessionId : Option String
deriving DecidableEq

/-- The token fields load_auth_tokens leaves in self._tokens. -/
structure AuthTokens where
  refreshToken : Option String
  accessToken : Option String
  accessTokenExpires : Option Int
deriving DecidableEq

/-- The empty self._tokens dict. -/
def emptyTokens : AuthTokens := ⟨none, none, none⟩

/-- EvoBroker.load_auth_tokens: a missing store reads as {}; if the stored
username (popped from the record) differs from the configured username the
tokens and session id are reset to empty, without failing; otherwise the
remaining token fields and the user_data session id are returned. -/
def loadAuthTokens (configUsername : String) (store : Option StoredRecord) :
    AuthTokens × Option String :=
  let app := store.getD ⟨none, none, none, none, none⟩
  if app.username ≠ some configUsername then (emptyTokens, none)
  else (⟨app.refreshToken, app.accessToken, app.accessTokenExpires⟩, app.sessionId)

/-- Python dict[str, float | None].get on self.temps: a missing key and a
stored None both come back as None. -/
def dictGet (temps : List (String × Option Rat)) (k : String) : Option Rat :=
  match temps.lookup k with
  | some v => v
  | none => none

/-- EvoChild.current_temperature: prefer the high-precision temperature when
self.temps.get(id) is not None, else fall back to the device temperature from
the v2 status. -/
def currentTemperature (temps : List (String × Option Rat)) (evoId : String)
    (deviceTemperature : Option Rat) : Option Rat :=
  match dictGet temps evoId with
  | some t => some t
  | none => deviceTemperature

/-- Concrete fixture: the spec's example day, switchpoints 08:00 (28800 s)
at 21.0 and 22:00 (79200 s) at 16.0. -/
def mondaySps : List Switchpoint := [⟨28800, .heat 21⟩, ⟨79200, .heat 16⟩]

/-- Concrete fixture: a 7-day schedule whose days all carry mondaySps. -/
def sched7 : List DayEntry := List.replicate 7 ⟨mondaySps⟩

/-- Concrete fixture: a broker state with an enabled legacy client and one
cached high-precision temperature. -/
def stEx : BrokerState := ⟨some ⟨some "sid"⟩, [("z1", some 21)], "loc1", "tok", none⟩

/-- A cycle input whose legacy fetch hits a schema mismatch while the remote
call minted a fresh session id. -/
def schemaCycle : CycleInput := ⟨V2Result.ok "s" "tok", V1FetchResult.invalidSchema (some "sid2")⟩

theorem weekday_lt (d : Int) : weekday d < 7 := by
  unfold weekday
  omega

theorem wrapZero (dow : Nat) (h : dow < 7) : (((dow : Int) + 0) % 7).toNat = dow := by
  omega

theorem pyGet_natCast (l : List α) (i : Nat) : pyGet l (i : Int) = l.get? i := by
  simp [pyGet]

theorem pyGet_neg_one (l : List α) : pyGet l (-1) = l.getLast? := by
  rw [List.getLast?_eq_getElem?, ← List.get?_eq_getElem?]
  cases l with
  | nil => simp [pyGet]
  | cons a as =>
      simp only [pyGet]
      rw [if_neg (by omega), if_pos (by simp)]
      norm_num

theorem countLt_eq_of (tod : Nat) (sps : List Switchpoint) (k : Nat)
    (hk : k ≤ sps.length)
    (hbelow : ∀ j (hj : j < sps.length), j < k → (sps.get ⟨j, hj⟩).timeOfDay < tod)
    (hstop : ∀ hk2 : k < sps.length, tod ≤ (sps.get ⟨k, hk2⟩).timeOfDay) :
    countLt tod sps = k := by
  induction sps generalizing k with
  | nil => simp only [List.length_nil, Nat.le_zero] at hk; simp [countLt, hk]
  | cons sp rest ih =>
      cases k with
      | zero =>
          have h0 := hstop (by simp)
          simp only [List.get] at h0
          simp only [countLt]
          rw [if_neg (by omega)]
      | succ k' =>
          have hsp : sp.timeOfDay < tod := by
            have := hbelow 0 (by simp) (Nat.succ_pos _)
            simpa using this
          simp only [countLt]
          rw [if_pos (by omega)]
          have hrest : countLt tod rest = k' := by
            apply ih
            · simpa using hk
            · intro j hj hjk
              have := hbelow (j + 1) (by simpa using Nat.succ_lt_succ hj)
                (Nat.succ_lt_succ hjk)
              simpa using this
            · intro hk2
              have := hstop (by simpa using Nat.succ_lt_succ hk2)
              simpa using this
          omega

theorem countLt_eq_length (tod : Nat) (sps : List Switchpoint)
    (h : ∀ sp ∈ sps, sp.timeOfDay < tod) :
    countLt tod sps = sps.length := by
  induction sps with
  | nil => simp [countLt]
  | cons sp rest ih =>
      simp only [countLt]
      rw [if_pos (by have := h sp (by simp); omega)]
      simp [ih (fun x hx => h x (by simp [hx]))]

theorem setpoints_eq (schedule : List DayEntry) (dayTime : RefInstant)
    (utcOffset : Int) (day : DayEntry)
    (hday : schedule.get? (weekday dayTime.epochDay) = some day) :
    setpoints schedule dayTime utcOffset =
      (projectOne schedule dayTime.epochDay (weekday dayTime.epochDay) utcOffset
          (thisSpDay (spIdx dayTime.timeOfDay day.switchpoints))
          (spIdx dayTime.timeOfDay day.switchpoints)).bind
        (fun sThis =>
          (projectOne schedule dayTime.epochDay (weekday dayTime.epochDay) utcOffset
              (nextSpDay (spIdx dayTime.timeOfDay day.switchpoints)
                day.switchpoints.length)
              ((spIdx dayTime.timeOfDay day.switchpoints + 1) *
                (1 - nextSpDay (spIdx dayTime.timeOfDay day.switchpoints)
                  day.switchpoints.length))).bind
            (fun sNext => some ⟨sThis, sNext⟩)) := by
  have hne : ¬ schedule.isEmpty := by
    cases schedule
    · simp at hday
    · simp
  rw [List.get?_eq_getElem?] at hday
  simp [setpoints, hne, hday]

theorem projectOne_eq (schedule : List DayEntry) (epochDay : Int) (dow : Nat)
    (off offset idx : Int) (d : DayEntry)
    (hd : schedule.get? (((dow : Int) + offset) % 7).toNat = some d) :
    projectOne schedule epochDay dow off offset idx =
      (pyGet d.switchpoints idx).map
        (fun sp => ⟨dtEvoToAware ((epochDay + offset) * 86400 + sp.timeOfDay) off,
          sp.value⟩) := by
  rw [List.get?_eq_getElem?] at hd
  cases h : pyGet d.switchpoints idx <;> simp [projectOne, hd, h]

theorem updateV2_fields (st : BrokerState) (res : V2Result) :
    (updateV2ApiState st res).1.clientV1 = st.clientV1 ∧
    (updateV2ApiState st res).1.temps = st.temps ∧
    (updateV2ApiState st res).1.locLocationId = st.locLocationId := by
  cases res <;> simp only [updateV2ApiState] <;> split <;> simp

theorem updateV2_acts (st : BrokerState) (res : V2Result) :
    ∀ a ∈ (updateV2ApiState st res).2, a = Act.dispatchSend ∨ a = Act.saveAuthTokens := by
  intro a ha
  cases res <;> simp only [updateV2ApiState] at ha <;> split at ha <;>
    simp at ha <;> simp [ha]

theorem asyncUpdate_disabled (st : BrokerState) (inp : CycleInput)
    (h : st.clientV1 = none) : asyncUpdate st inp = updateV2ApiState st inp.v2 := by
  have h2 : (updateV2ApiState st inp.v2).1.clientV1 = none :=
    (updateV2_fields st inp.v2).1.trans h
  simp [asyncUpdate, h2]

theorem asyncUpdate_enabled (st : BrokerState) (inp : CycleInput) (c : ClientV1)
    (h : st.clientV1 = some c) :
    asyncUpdate st inp =
      ((updateV1ApiTemps (updateV2ApiState st inp.v2).1 c inp.v1).1,
        (updateV2ApiState st inp.v2).2 ++ [Act.fetchV1] ++
          (updateV1ApiTemps (updateV2ApiState st inp.v2).1 c inp.v1).2) := by
  have h2 : (updateV2ApiState st inp.v2).1.clientV1 = some c :=
    (updateV2_fields st inp.v2).1.trans h
  simp [asyncUpdate, h2]

theorem runCycles_disabled (inps : List CycleInput) (st : BrokerState)
    (h : st.clientV1 = none) :
    (runCycles st inps).1.clientV1 = none ∧
    ∀ a ∈ (runCycles st inps).2, a = Act.dispatchSend ∨ a = Act.saveAuthTokens := by
  induction inps generalizing st with
  | nil => simp [runCycles, h]
  | cons inp rest ih =>
      have hasync := asyncUpdate_disabled st inp h
      have hcv : (asyncUpdate st inp).1.clientV1 = none := by
        rw [hasync]; exact (updateV2_fields st inp.v2).1.trans h
      have hrest := ih (asyncUpdate st inp).1 hcv
      refine ⟨by simp only [runCycles]; exact hrest.1, ?_⟩
      intro a ha
      simp only [runCycles, List.mem_append] at ha
      rcases ha with ha | ha
      · rw [hasync] at ha; exact updateV2_acts st inp.v2 a ha
      · exact hrest.2 a ha

/-- C5: when the primary status refresh fails with RequestFailed nothing is
dispatched and the stored status blob and cached temperatures are unchanged;
when it succeeds a change notification is dispatched; in either case
credentials are persisted exactly when the access token changed during the
call. -/
theorem c5_primary_refresh (st : BrokerState) (res : V2Result) :
    (∀ tok, res = V2Result.requestFailed tok →
      (updateV2ApiState st res).1.status = st.status ∧
      (updateV2ApiState st res).1.temps = st.temps ∧
      Act.dispatchSend ∉ (updateV2ApiState st res).2) ∧
    (∀ ns tok, res = V2Result.ok ns tok →
      Act.dispatchSend ∈ (updateV2ApiState st res).2) ∧
    (Act.saveAuthTokens ∈ (updateV2ApiState st res).2 ↔
      st.accessToken ≠ res.newTokOf) := by
  refine ⟨?_, ?_, ?_⟩
  · rintro tok rfl
    simp only [updateV2ApiState]
    split <;> simp
  · rintro ns tok rfl
    simp only [updateV2ApiState]
    split <;> simp
  · cases res <;> simp only [updateV2ApiState, V2Result.newTokOf] <;> split <;>
      simp_all

/-- Witness for C5 at a concrete state and a successful refresh that rotated
the access token. -/
theorem c5_witness :
    Act.dispatchSend ∈ (updateV2ApiState stEx (V2Result.ok "s" "tok2")).2 ∧
    (Act.saveAuthTokens ∈ (updateV2ApiState stEx (V2Result.ok "s" "tok2")).2 ↔
      stEx.accessToken ≠ (V2Result.ok "s" "tok2").newTokOf) :=
  ⟨(c5_primary_refresh stEx (V2Result.ok "s" "tok2")).2.1 "s" "tok2" rfl,
    (c5_primary_refresh stEx (V2Result.ok "s" "tok2")).2.2⟩

/-- C7: a legacy fetch failing with RequestFailed clears the cached
temperatures for this cycle only and keeps the legacy client enabled, so the
immediately following cycle attempts the legacy fetch again. -/
theorem c7_request_failure_transient (st : BrokerState) (c : ClientV1)
    (inp : CycleInput) (sid : Option String)
    (hc : st.clientV1 = some c) (hv1 : inp.v1 = V1FetchResult.requestFailed sid) :
    (asyncUpdate st inp).1.temps = [] ∧
    (asyncUpdate st inp).1.clientV1 = some ⟨sid⟩ ∧
    ∀ inp2 : CycleInput, Act.fetchV1 ∈ (asyncUpdate (asyncUpdate st inp).1 inp2).2 := by
  rw [asyncUpdate_enabled st inp c hc, hv1]
  have h1 : (updateV1ApiTemps (updateV2ApiState st inp.v2).1 c
      (V1FetchResult.requestFailed sid)).1 =
      { (updateV2ApiState st inp.v2).1 with clientV1 := some ⟨sid⟩, temps := [] } := by
    simp only [updateV1ApiTemps]
    split <;> rfl
  rw [h1]
  refine ⟨rfl, rfl, ?_⟩
  intro inp2
  rw [asyncUpdate_enabled _ inp2 ⟨sid⟩ rfl]
  simp

/-- Witness for C7 at a concrete state and a network-failure cycle. -/
theorem c7_witness :
    stEx.clientV1 = some ⟨some "sid"⟩ ∧
    ((asyncUpdate stEx ⟨V2Result.ok "s" "tok", V1FetchResult.requestFailed (some "sid2")⟩).1.temps = [] ∧
     (asyncUpdate stEx ⟨V2Result.ok "s" "tok", V1FetchResult.requestFailed (some "sid2")⟩).1.clientV1 = some ⟨some "sid2"⟩ ∧
     ∀ inp2 : CycleInput,
       Act.fetchV1 ∈ (asyncUpdate (asyncUpdate stEx
         ⟨V2Result.ok "s" "tok", V1FetchResult.requestFailed (some "sid2")⟩).1 inp2).2) :=
  ⟨rfl, c7_request_failure_transient stEx ⟨some "sid"⟩ _ (some "sid2") rfl rfl⟩

/-- C8: with the remote login succeeding but the configured location index out
of range, login fails with AuthenticationFailed carrying the remediation
message, and credentials are not saved on that path. -/
theorem c8_login_bad_index (locIdx : Nat) (env : LoginEnv)
    (hok : env.remoteLoginOk = true) (hrange : env.installationCount ≤ locIdx) :
    login locIdx env =
      (LoginOutcome.authFailed (locIdxErrorMsg locIdx env.installationCount), []) ∧
    Act.saveAuthTokens ∉ (login locIdx env).2 := by
  have h : login locIdx env =
      (LoginOutcome.authFailed (locIdxErrorMsg locIdx env.installationCount), []) := by
    simp [login, hok, Nat.not_lt.mpr hrange]
  exact ⟨h, by rw [h]; simp⟩

/-- Witness for C8 with one account location and configured index 1. -/
theorem c8_witness :
    (⟨true, 1⟩ : LoginEnv).remoteLoginOk = true ∧ 1 ≤ (1 : Nat) ∧
    (login 1 ⟨true, 1⟩ = (LoginOutcome.authFailed (locIdxErrorMsg 1 1), []) ∧
      Act.saveAuthTokens ∉ (login 1 ⟨true, 1⟩).2) :=
  ⟨rfl, by decide, c8_login_bad_index 1 ⟨true, 1⟩ rfl (by decide)⟩

/-- C9: loading credentials with a stored username different from the
configured one returns empty credentials without failing; with a matching
username the stored tokens and session id are returned. -/
theorem c9_username_gate (u : String) (r : StoredRecord) :
    (r.username ≠ some u → loadAuthTokens u (some r) = (emptyTokens, none)) ∧
    (r.username = some u →
      loadAuthTokens u (some r) =
        (⟨r.refreshToken, r.accessToken, r.accessTokenExpires⟩, r.sessionId)) := by
  constructor <;> intro h <;> simp [loadAuthTokens, h]

/-- Witness for C9 with a mismatched stored username. -/
theorem c9_witness :
    (some "you" ≠ some "me") ∧
    loadAuthTokens "me" (some ⟨some "you", some "r", some "a", some 5, some "s"⟩) =
      (emptyTokens, none) :=
  ⟨by decide,
    (c9_username_gate "me" ⟨some "you", some "r", some "a", some 5, some "s"⟩).1
      (by decide)⟩

/-- C10: the current-temperature read falls back to the device temperature
both when the high-precision map has no entry for the id and when the entry is
present with value None, and a present high-precision value is preferred. -/
theorem c10_none_fallback (temps : List (String × Option Rat)) (evoId : String)
    (deviceTemp : Option Rat) :
    (temps.lookup evoId = some none →
      currentTemperature temps evoId deviceTemp = deviceTemp) ∧
    (temps.lookup evoId = none →
      currentTemperature temps evoId deviceTemp = deviceTemp) ∧
    (∀ v, temps.lookup evoId = some (some v) →
      currentTemperature temps evoId deviceTemp = some v) := by
  refine ⟨fun h => ?_, fun h => ?_, fun v h => ?_⟩ <;>
    simp [currentTemperature, dictGet, h]

/-- Witness for C10: an entry present with value None falls back to the device
temperature. -/
theorem c10_witness :
    ([("z1", (none : Option Rat))].lookup "z1" = some none) ∧
    currentTemperature [("z1", none)] "z1" (some 19) = some 19 :=
  ⟨by decide, (c10_none_fallback [("z1", none)] "z1" (some 19)).1 (by decide)⟩

/-- C3 counterexample: at a concrete state with a cached high-precision
temperature, a schema-mismatch cycle disables the legacy source but does NOT
clear the cached temperatures, contradicting the claim that they are
cleared. -/
theorem c3_counterexample :
    (asyncUpdate stEx schemaCycle).1.clientV1 = none ∧
    (asyncUpdate stEx schemaCycle).1.temps = [("z1", some 21)] ∧
    (asyncUpdate stEx schemaCycle).1.temps ≠ [] := by
  refine ⟨rfl, rfl, by decide⟩

/-- C3 as amended: a schema-mismatch failure permanently disables the legacy
source (the client is dropped and never fetched again in any later cycle),
the warning is logged exactly once, and the cached high-precision
temperatures are left unchanged (they are not cleared). -/
theorem c3_schema_latch (st : BrokerState) (c : ClientV1) (inp : CycleInput)
    (sid : Option String)
    (hc : st.clientV1 = some c) (hv1 : inp.v1 = V1FetchResult.invalidSchema sid) :
    (asyncUpdate st inp).1.clientV1 = none ∧
    (asyncUpdate st inp).1.temps = st.temps ∧
    (asyncUpdate st inp).2.count Act.warnSchema = 1 ∧
    ∀ inps : List CycleInput,
      (runCycles (asyncUpdate st inp).1 inps).1.clientV1 = none ∧
      Act.fetchV1 ∉ (runCycles (asyncUpdate st inp).1 inps).2 ∧
      Act.warnSchema ∉ (runCycles (asyncUpdate st inp).1 inps).2 := by
  have hasync := asyncUpdate_enabled st inp c hc
  have hu1 : updateV1ApiTemps (updateV2ApiState st inp.v2).1 c
      (V1FetchResult.invalidSchema sid) =
      ({ (updateV2ApiState st inp.v2).1 with clientV1 := none }, [Act.warnSchema]) := by
    simp [updateV1ApiTemps]
  rw [hasync, hv1, hu1]
  have hv2temps := (updateV2_fields st inp.v2).2.1
  refine ⟨rfl, hv2temps, ?_, ?_⟩
  · rw [List.count_append, List.count_append]
    have hz : (updateV2ApiState st inp.v2).2.count Act.warnSchema = 0 := by
      rw [List.count_eq_zero]
      intro hmem
      rcases updateV2_acts st inp.v2 _ hmem with h | h <;> simp at h
    rw [hz]
    rfl
  · intro inps
    have hdis := runCycles_disabled inps
      { (updateV2ApiState st inp.v2).1 with clientV1 := none } rfl
    refine ⟨hdis.1, ?_, ?_⟩
    · intro hmem; rcases hdis.2 _ hmem with h | h <;> simp at h
    · intro hmem; rcases hdis.2 _ hmem with h | h <;> simp at h

/-- Witness for the amended C3 at a concrete state and schema-mismatch
cycle. -/
theorem c3_witness :
    stEx.clientV1 = some ⟨some "sid"⟩ ∧
    schemaCycle.v1 = V1FetchResult.invalidSchema (some "sid2") ∧
    ((asyncUpdate stEx schemaCycle).1.clientV1 = none ∧
     (asyncUpdate stEx schemaCycle).1.temps = stEx.temps ∧
     (asyncUpdate stEx schemaCycle).2.count Act.warnSchema = 1 ∧
     ∀ inps : List CycleInput,
       (runCycles (asyncUpdate stEx schemaCycle).1 inps).1.clientV1 = none ∧
       Act.fetchV1 ∉ (runCycles (asyncUpdate stEx schemaCycle).1 inps).2 ∧
       Act.warnSchema ∉ (runCycles (asyncUpdate stEx schemaCycle).1 inps).2) :=
  ⟨rfl, rfl, c3_schema_latch stEx ⟨some "sid"⟩ schemaCycle (some "sid2") rfl rfl⟩

/-- C4 counterexample: a schema-mismatch outcome during which the legacy
session id changed does NOT persist credentials, contradicting the claim that
a changed session id is persisted on any outcome. -/
theorem c4_counterexample :
    Act.saveAuthTokens ∉
      (updateV1ApiTemps stEx ⟨some "sid"⟩ (V1FetchResult.invalidSchema (some "sid2"))).2 ∧
    (⟨some "sid"⟩ : ClientV1).sessionId ≠
      (V1FetchResult.invalidSchema (some "sid2")).newSidOf := by
  decide

/-- C4 as amended: after a legacy fetch cycle, if the cycle left the legacy
client set (success with matching location, network failure, or another
exception) then credentials are persisted exactly when the legacy session id
changed; if the cycle dropped the client (schema mismatch or location
mismatch) no persist occurs on that path, even when the session id changed. -/
theorem c4_session_persist (st : BrokerState) (c : ClientV1) (res : V1FetchResult) :
    ((updateV1ApiTemps st c res).1.clientV1.isSome = true →
      (Act.saveAuthTokens ∈ (updateV1ApiTemps st c res).2 ↔
        c.sessionId ≠ res.newSidOf)) ∧
    ((updateV1ApiTemps st c res).1.clientV1 = none →
      Act.saveAuthTokens ∉ (updateV1ApiTemps st c res).2) := by
  cases res with
  | invalidSchema sid => simp [updateV1ApiTemps, V1FetchResult.newSidOf]
  | requestFailed sid =>
      by_cases hsid : c.sessionId = sid <;>
        simp [updateV1ApiTemps, V1FetchResult.newSidOf, hsid]
  | otherExc sid =>
      by_cases hsid : c.sessionId = sid <;>
        simp [updateV1ApiTemps, V1FetchResult.newSidOf, hsid]
  | success newTemps newLocId sid =>
      by_cases hloc : newLocId = st.locLocationId
      · by_cases hsid : c.sessionId = sid <;>
          simp [updateV1ApiTemps, V1FetchResult.newSidOf, hloc, hsid]
      · simp [updateV1ApiTemps, V1FetchResult.newSidOf, hloc]

/-- Witness for the amended C4 at a concrete surviving outcome with a changed
session id. -/
theorem c4_witness :
    (updateV1ApiTemps stEx ⟨some "sid"⟩
      (V1FetchResult.success [] "loc1" (some "sid2"))).1.clientV1.isSome = true ∧
    (Act.saveAuthTokens ∈
        (updateV1ApiTemps stEx ⟨some "sid"⟩
          (V1FetchResult.success [] "loc1" (some "sid2"))).2 ↔
      (⟨some "sid"⟩ : ClientV1).sessionId ≠
        (V1FetchResult.success [] "loc1" (some "sid2")).newSidOf) :=
  ⟨by decide,
    (c4_session_persist stEx ⟨some "sid"⟩
      (V1FetchResult.success [] "loc1" (some "sid2"))).1 (by decide)⟩

/-- C1 counterexample: every day holds switchpoints at 08:00 (28800 s) and
22:00 (79200 s); at reference Monday (epoch day 4) exactly 08:00:00 the
projector does NOT select the 08:00 switchpoint as "this" (as the claim
requires for an equal time-of-day): it selects the last switchpoint of
Sunday, because the scan uses a strict comparison. -/
theorem c1_counterexample :
    setpoints sched7 ⟨4, 28800⟩ 0 =
      some ⟨⟨3 * 86400 + 79200, SpValue.heat 16⟩, ⟨4 * 86400 + 28800, SpValue.heat 21⟩⟩ ∧
    (setpoints sched7 ⟨4, 28800⟩ 0).map Setpoints.thisSp ≠
      some ⟨4 * 86400 + 28800, SpValue.heat 21⟩ := by
  constructor
  · decide
  · decide

/-- C1 as amended: for a sorted day-entry the projector selects as "this" the
last switchpoint of today whose time-of-day is STRICTLY LESS than the
reference time-of-day; in particular, when the reference time-of-day equals a
switchpoint's time-of-day exactly, that switchpoint is selected as "next" and
its predecessor as "this". -/
theorem c1_strict_scan (schedule : List DayEntry) (dayTime : RefInstant)
    (utcOffset : Int) (day : DayEntry) (i : Nat)
    (hday : schedule.get? (weekday dayTime.epochDay) = some day)
    (hsorted : day.switchpoints.Pairwise (fun a b => a.timeOfDay ≤ b.timeOfDay))
    (hi : i < day.switchpoints.length)
    (hlt : (day.switchpoints.get ⟨i, hi⟩).timeOfDay < dayTime.timeOfDay)
    (hub : ∀ h2 : i + 1 < day.switchpoints.length,
      dayTime.timeOfDay ≤ (day.switchpoints.get ⟨i + 1, h2⟩).timeOfDay) :
    spIdx dayTime.timeOfDay day.switchpoints = (i : Int) ∧
    ∀ s, setpoints schedule dayTime utcOffset = some s →
      s.thisSp = ⟨dayTime.epochDay * 86400 +
          (day.switchpoints.get ⟨i, hi⟩).timeOfDay - utcOffset,
        (day.switchpoints.get ⟨i, hi⟩).value⟩ ∧
      ∀ h2 : i + 1 < day.switchpoints.length,
        s.nextSp = ⟨dayTime.epochDay * 86400 +
            (day.switchpoints.get ⟨i + 1, h2⟩).timeOfDay - utcOffset,
          (day.switchpoints.get ⟨i + 1, h2⟩).value⟩ := by
  have hcount : countLt dayTime.timeOfDay day.switchpoints = i + 1 := by
    apply countLt_eq_of _ _ _ (by omega)
    · intro j hj hjk
      rcases Nat.lt_or_ge j i with hji | hji
      · have hpw := List.pairwise_iff_get.mp hsorted ⟨j, hj⟩ ⟨i, hi⟩ hji
        exact lt_of_le_of_lt hpw hlt
      · have hje : j = i := by omega
        subst hje
        exact hlt
    · intro hk2
      exact hub hk2
  have hIdx : spIdx dayTime.timeOfDay day.switchpoints = (i : Int) := by
    unfold spIdx
    rw [hcount]
    omega
  refine ⟨hIdx, ?_⟩
  intro s hs
  rw [setpoints_eq schedule dayTime utcOffset day hday, hIdx] at hs
  have hoT : thisSpDay (i : Int) = 0 := by
    unfold thisSpDay
    rw [if_neg (by omega)]
  rw [hoT] at hs
  have hd0 : schedule.get? ((((weekday dayTime.epochDay) : Int) + 0) % 7).toNat =
      some day := by
    rw [wrapZero _ (weekday_lt _)]
    exact hday
  have hpt : projectOne schedule dayTime.epochDay (weekday dayTime.epochDay)
      utcOffset 0 (i : Int) =
      some ⟨dayTime.epochDay * 86400 +
          (day.switchpoints.get ⟨i, hi⟩).timeOfDay - utcOffset,
        (day.switchpoints.get ⟨i, hi⟩).value⟩ := by
    rw [projectOne_eq schedule dayTime.epochDay _ utcOffset 0 (i : Int) day hd0]
    rw [pyGet_natCast, List.get?_eq_get hi]
    simp only [Option.map_some', Option.some.injEq, SetpointInfo.mk.injEq,
      dtEvoToAware]
    exact ⟨by ring, trivial⟩
  rw [hpt] at hs
  simp only [Option.some_bind] at hs
  cases hn : projectOne schedule dayTime.epochDay (weekday dayTime.epochDay)
      utcOffset (nextSpDay (i : Int) day.switchpoints.length)
      (((i : Int) + 1) * (1 - nextSpDay (i : Int) day.switchpoints.length)) with
  | none =>
      rw [hn] at hs
      simp at hs
  | some nInfo =>
      rw [hn] at hs
      simp only [Option.some_bind, Option.some.injEq] at hs
      subst hs
      constructor
      · rfl
      · intro h2
        have hoN : nextSpDay (i : Int) day.switchpoints.length = 0 := by
          unfold nextSpDay
          rw [if_neg (by omega)]
        rw [hoN] at hn
        have hcast : ((i : Int) + 1) * (1 - 0) = ((i + 1 : Nat) : Int) := by
          push_cast
          ring
        rw [hcast] at hn
        have hpn : projectOne schedule dayTime.epochDay (weekday dayTime.epochDay)
            utcOffset 0 ((i + 1 : Nat) : Int) =
            some ⟨dayTime.epochDay * 86400 +
                (day.switchpoints.get ⟨i + 1, h2⟩).timeOfDay - utcOffset,
              (day.switchpoints.get ⟨i + 1, h2⟩).value⟩ := by
          rw [projectOne_eq schedule dayTime.epochDay _ utcOffset 0
            ((i + 1 : Nat) : Int) day hd0]
          rw [pyGet_natCast, List.get?_eq_get h2]
          simp only [Option.map_some', Option.some.injEq, SetpointInfo.mk.injEq,
            dtEvoToAware]
          exact ⟨by ring, trivial⟩
        rw [hpn] at hn
        injection hn with hval
        rw [← hval]

/-- Witness for the amended C1: reference Monday 09:00 between the 08:00 and
22:00 switchpoints selects the 08:00 switchpoint as "this". -/
theorem c1_witness :
    spIdx 32400 mondaySps = (0 : Int) ∧
    (setpoints sched7 ⟨4, 32400⟩ 0).map Setpoints.thisSp =
      some ⟨374400, SpValue.heat 21⟩ := by
  have h := c1_strict_scan sched7 ⟨4, 32400⟩ 0 ⟨mondaySps⟩ 0 (by decide)
    (by decide) (by decide) (by decide) (fun _ => show (32400 : Nat) ≤ 79200 by decide)
  have hsp : setpoints sched7 ⟨4, 32400⟩ 0 =
      some ⟨⟨374400, SpValue.heat 21⟩, ⟨424800, SpValue.heat 16⟩⟩ := by decide
  refine ⟨h.1, ?_⟩
  rw [hsp]
  decide


/-- C2: if the reference time-of-day precedes the first switchpoint of today,
"this" is the last switchpoint of yesterday (day offset -1) and "next" the
first switchpoint of today; and if "this" resolves to the last switchpoint of
today, "next" is the first switchpoint of tomorrow (day offset +1); day
indices wrap modulo 7. -/
theorem c2_day_wrap (schedule : List DayEntry) (dayTime : RefInstant)
    (utcOffset : Int) (day : DayEntry)
    (hday : schedule.get? (weekday dayTime.epochDay) = some day) :
    (∀ yday ylast sp0,
      schedule.get? ((((weekday dayTime.epochDay) : Int) - 1) % 7).toNat = some yday →
      yday.switchpoints.getLast? = some ylast →
      day.switchpoints.head? = some sp0 →
      dayTime.timeOfDay < sp0.timeOfDay →
      ∀ s, setpoints schedule dayTime utcOffset = some s →
        s.thisSp = ⟨(dayTime.epochDay - 1) * 86400 + ylast.timeOfDay - utcOffset,
          ylast.value⟩ ∧
        s.nextSp = ⟨dayTime.epochDay * 86400 + sp0.timeOfDay - utcOffset,
          sp0.value⟩) ∧
    (∀ tday tfirst tlast,
      schedule.get? ((((weekday dayTime.epochDay) : Int) + 1) % 7).toNat = some tday →
      tday.switchpoints.head? = some tfirst →
      day.switchpoints.getLast? = some tlast →
      (∀ sp ∈ day.switchpoints, sp.timeOfDay < dayTime.timeOfDay) →
      ∀ s, setpoints schedule dayTime utcOffset = some s →
        s.thisSp = ⟨dayTime.epochDay * 86400 + tlast.timeOfDay - utcOffset,
          tlast.value⟩ ∧
        s.nextSp = ⟨(dayTime.epochDay + 1) * 86400 + tfirst.timeOfDay - utcOffset,
          tfirst.value⟩) := by
  have hd0 : schedule.get? ((((weekday dayTime.epochDay) : Int) + 0) % 7).toNat =
      some day := by
    rw [wrapZero _ (weekday_lt _)]
    exact hday
  constructor
  · intro yday ylast sp0 hyest hylast hhead href s hs
    have hne : day.switchpoints ≠ [] := by
      intro hnil
      rw [hnil] at hhead
      simp at hhead
    have hlen : 1 ≤ day.switchpoints.length :=
      List.length_pos.mpr hne
    have hhead0 : day.switchpoints.get? 0 = some sp0 := by
      cases hsw : day.switchpoints with
      | nil => exact absurd hsw hne
      | cons a l =>
          rw [hsw] at hhead
          simpa using hhead
    have hcnt : countLt dayTime.timeOfDay day.switchpoints = 0 := by
      cases hsw : day.switchpoints with
      | nil => simp [countLt]
      | cons a l =>
          have ha : a = sp0 := by
            rw [hsw] at hhead
            simpa using hhead
          subst ha
          simp only [countLt]
          rw [if_neg (by omega)]
    have hIdx : spIdx dayTime.timeOfDay day.switchpoints = -1 := by
      unfold spIdx
      rw [hcnt]
      rfl
    rw [setpoints_eq schedule dayTime utcOffset day hday, hIdx] at hs
    have hoT : thisSpDay (-1) = -1 := by
      unfold thisSpDay
      rw [if_pos rfl]
    have hoN : nextSpDay (-1) day.switchpoints.length = 0 := by
      unfold nextSpDay
      rw [if_neg (by omega)]
    rw [hoT, hoN] at hs
    have hyd : schedule.get? ((((weekday dayTime.epochDay) : Int) + -1) % 7).toNat =
        some yday := by
      have he : ((weekday dayTime.epochDay : Int) + -1) =
          ((weekday dayTime.epochDay : Int) - 1) := by ring
      rw [he]
      exact hyest
    have hpt : projectOne schedule dayTime.epochDay (weekday dayTime.epochDay)
        utcOffset (-1) (-1) =
        some ⟨(dayTime.epochDay - 1) * 86400 + ylast.timeOfDay - utcOffset,
          ylast.value⟩ := by
      rw [projectOne_eq schedule dayTime.epochDay _ utcOffset (-1) (-1) yday hyd]
      rw [pyGet_neg_one, hylast]
      simp only [Option.map_some', Option.some.injEq, SetpointInfo.mk.injEq,
        dtEvoToAware, and_true]
      all_goals ring
    have hpn : projectOne schedule dayTime.epochDay (weekday dayTime.epochDay)
        utcOffset 0 (((-1 : Int) + 1) * (1 - 0)) =
        some ⟨dayTime.epochDay * 86400 + sp0.timeOfDay - utcOffset, sp0.value⟩ := by
      have hz : (((-1 : Int) + 1) * (1 - 0)) = ((0 : Nat) : Int) := by norm_num
      rw [hz, projectOne_eq schedule dayTime.epochDay _ utcOffset 0
        ((0 : Nat) : Int) day hd0]
      rw [pyGet_natCast, hhead0]
      simp only [Option.map_some', Option.some.injEq, SetpointInfo.mk.injEq,
        dtEvoToAware, and_true]
      all_goals ring
    rw [hpt] at hs
    simp only [Option.some_bind] at hs
    rw [hpn] at hs
    simp only [Option.some_bind, Option.some.injEq] at hs
    subst hs
    exact ⟨rfl, rfl⟩
  · intro tday tfirst tlast htom hthead htlast hall s hs
    have hne : day.switchpoints ≠ [] := by
      intro hnil
      rw [hnil] at htlast
      simp at htlast
    have hlen : 1 ≤ day.switchpoints.length :=
      List.length_pos.mpr hne
    have hcnt : countLt dayTime.timeOfDay day.switchpoints =
        day.switchpoints.length := countLt_eq_length _ _ hall
    have hIdx : spIdx dayTime.timeOfDay day.switchpoints =
        ((day.switchpoints.length : Int) - 1) := by
      unfold spIdx
      rw [hcnt]
    rw [setpoints_eq schedule dayTime utcOffset day hday, hIdx] at hs
    have hoT : thisSpDay ((day.switchpoints.length : Int) - 1) = 0 := by
      unfold thisSpDay
      rw [if_neg (by omega)]
    have hoN : nextSpDay ((day.switchpoints.length : Int) - 1)
        day.switchpoints.length = 1 := by
      unfold nextSpDay
      rw [if_pos (by omega)]
    rw [hoT, hoN] at hs
    have hlastidx : ((day.switchpoints.length : Int) - 1) =
        ((day.switchpoints.length - 1 : Nat) : Int) := by omega
    have hgetlast : day.switchpoints.get? (day.switchpoints.length - 1) =
        some tlast := by
      rw [List.get?_eq_getElem?, ← List.getLast?_eq_getElem?]
      exact htlast
    have hpt : projectOne schedule dayTime.epochDay (weekday dayTime.epochDay)
        utcOffset 0 ((day.switchpoints.length : Int) - 1) =
        some ⟨dayTime.epochDay * 86400 + tlast.timeOfDay - utcOffset,
          tlast.value⟩ := by
      rw [hlastidx, projectOne_eq schedule dayTime.epochDay _ utcOffset 0
        ((day.switchpoints.length - 1 : Nat) : Int) day hd0]
      rw [pyGet_natCast, hgetlast]
      simp only [Option.map_some', Option.some.injEq, SetpointInfo.mk.injEq,
        dtEvoToAware, and_true]
      all_goals ring
    have hthead0 : tday.switchpoints.get? 0 = some tfirst := by
      cases hsw : tday.switchpoints with
      | nil =>
          rw [hsw] at hthead
          simp at hthead
      | cons a l =>
          rw [hsw] at hthead
          simpa using hthead
    have hpn : projectOne schedule dayTime.epochDay (weekday dayTime.epochDay)
        utcOffset 1 ((((day.switchpoints.length : Int) - 1) + 1) * (1 - 1)) =
        some ⟨(dayTime.epochDay + 1) * 86400 + tfirst.timeOfDay - utcOffset,
          tfirst.value⟩ := by
      have hz : ((((day.switchpoints.length : Int) - 1) + 1) * (1 - 1)) =
          ((0 : Nat) : Int) := by norm_num
      rw [hz, projectOne_eq schedule dayTime.epochDay _ utcOffset 1
        ((0 : Nat) : Int) tday htom]
      rw [pyGet_natCast, hthead0]
      simp only [Option.map_some', Option.some.injEq, SetpointInfo.mk.injEq,
        dtEvoToAware, and_true]
    rw [hpt] at hs
    simp only [Option.some_bind] at hs
    rw [hpn] at hs
    simp only [Option.some_bind, Option.some.injEq] at hs
    subst hs
    exact ⟨rfl, rfl⟩

/-- Witness for C2: reference Monday 07:00 wraps "this" back to Sunday's last
switchpoint, and reference Monday 23:00 wraps "next" forward to Tuesday's
first switchpoint. -/
theorem c2_witness :
    (∀ s, setpoints sched7 ⟨4, 25200⟩ 0 = some s →
      s.thisSp = ⟨(4 - 1) * 86400 + 79200 - 0, SpValue.heat 16⟩ ∧
      s.nextSp = ⟨4 * 86400 + 28800 - 0, SpValue.heat 21⟩) ∧
    (∀ s, setpoints sched7 ⟨4, 82800⟩ 0 = some s →
      s.thisSp = ⟨4 * 86400 + 79200 - 0, SpValue.heat 16⟩ ∧
      s.nextSp = ⟨(4 + 1) * 86400 + 28800 - 0, SpValue.heat 21⟩) := by
  constructor
  · exact fun s hs =>
      (c2_day_wrap sched7 ⟨4, 25200⟩ 0 ⟨mondaySps⟩ (by decide)).1
        ⟨mondaySps⟩ ⟨79200, SpValue.heat 16⟩ ⟨28800, SpValue.heat 21⟩
        (by decide) (by decide) (by decide) (by decide) s hs
  · exact fun s hs =>
      (c2_day_wrap sched7 ⟨4, 82800⟩ 0 ⟨mondaySps⟩ (by decide)).2
        ⟨mondaySps⟩ ⟨28800, SpValue.heat 21⟩ ⟨79200, SpValue.heat 16⟩
        (by decide) (by decide) (by decide) (by decide) s hs

theorem thisSpDay_cases (x : Int) : thisSpDay x = -1 ∨ thisSpDay x = 0 := by
  unfold thisSpDay
  split <;> simp

theorem nextSpDay_cases (x : Int) (n : Nat) : nextSpDay x n = 0 ∨ nextSpDay x n = 1 := by
  unfold nextSpDay
  split <;> simp

theorem setpoints_none_of (schedule : List DayEntry) (dayTime : RefInstant)
    (utcOffset : Int)
    (hd : schedule.get? (weekday dayTime.epochDay) = none) :
    setpoints schedule dayTime utcOffset = none := by
  unfold setpoints
  split
  · rfl
  · rw [List.get?_eq_getElem?] at hd
    simp [hd]

theorem projectOne_some (schedule : List DayEntry) (epochDay : Int) (dow : Nat)
    (off offset idx : Int) (info : SetpointInfo)
    (h : projectOne schedule epochDay dow off offset idx = some info) :
    ∃ d sp, schedule.get? (((dow : Int) + offset) % 7).toNat = some d ∧
      pyGet d.switchpoints idx = some sp ∧
      info = ⟨dtEvoToAware ((epochDay + offset) * 86400 + sp.timeOfDay) off,
        sp.value⟩ := by
  cases hd : schedule.get? (((dow : Int) + offset) % 7).toNat with
  | none =>
      rw [List.get?_eq_getElem?] at hd
      simp [projectOne, hd] at h
  | some d =>
      cases hp : pyGet d.switchpoints idx with
      | none =>
          rw [projectOne_eq schedule epochDay dow off offset idx d hd, hp] at h
          simp at h
      | some sp =>
          rw [projectOne_eq schedule epochDay dow off offset idx d hd, hp] at h
          exact ⟨d, sp, rfl, hp, by simpa using h.symm⟩

/-- C6: whenever the projector returns a projection, each of the two reported
instants is exactly the combination of (reference date + day offset) with the
selected switchpoint's naive time-of-day, interpreted as UTC and corrected by
the location UTC offset, with day offset -1 or 0 for "this" and 0 or +1 for
"next". -/
theorem c6_offset_instants (schedule : List DayEntry) (dayTime : RefInstant)
    (utcOffset : Int) (s : Setpoints)
    (h : setpoints schedule dayTime utcOffset = some s) :
    ∃ oT iT dT spT oN iN dN spN,
      (oT = -1 ∨ oT = 0) ∧
      (oN = 0 ∨ oN = 1) ∧
      schedule.get? ((((weekday dayTime.epochDay) : Int) + oT) % 7).toNat = some dT ∧
      pyGet dT.switchpoints iT = some spT ∧
      s.thisSp = ⟨dtEvoToAware ((dayTime.epochDay + oT) * 86400 + spT.timeOfDay)
        utcOffset, spT.value⟩ ∧
      schedule.get? ((((weekday dayTime.epochDay) : Int) + oN) % 7).toNat = some dN ∧
      pyGet dN.switchpoints iN = some spN ∧
      s.nextSp = ⟨dtEvoToAware ((dayTime.epochDay + oN) * 86400 + spN.timeOfDay)
        utcOffset, spN.value⟩ := by
  cases hd : schedule.get? (weekday dayTime.epochDay) with
  | none =>
      rw [setpoints_none_of schedule dayTime utcOffset hd] at h
      exact absurd h (by simp)
  | some day =>
      rw [setpoints_eq schedule dayTime utcOffset day hd] at h
      rw [Option.bind_eq_some] at h
      obtain ⟨sT, hsT, h⟩ := h
      rw [Option.bind_eq_some] at h
      obtain ⟨sN, hsN, h⟩ := h
      have hsEq : s = ⟨sT, sN⟩ := by
        injection h with h2
        exact h2.symm
      subst hsEq
      obtain ⟨dT, spT, hdT, hpT, hTeq⟩ := projectOne_some _ _ _ _ _ _ _ hsT
      obtain ⟨dN, spN, hdN, hpN, hNeq⟩ := projectOne_some _ _ _ _ _ _ _ hsN
      exact ⟨thisSpDay (spIdx dayTime.timeOfDay day.switchpoints),
        spIdx dayTime.timeOfDay day.switchpoints, dT, spT,
        nextSpDay (spIdx dayTime.timeOfDay day.switchpoints)
          day.switchpoints.length,
        (spIdx dayTime.timeOfDay day.switchpoints + 1) *
          (1 - nextSpDay (spIdx dayTime.timeOfDay day.switchpoints)
            day.switchpoints.length), dN, spN,
        thisSpDay_cases _, nextSpDay_cases _ _, hdT, hpT, hTeq, hdN, hpN, hNeq⟩

/-- Witness for C6 at a concrete schedule, reference instant and a one-hour
UTC offset. -/
theorem c6_witness :
    setpoints sched7 ⟨4, 32400⟩ 3600 =
      some ⟨⟨370800, SpValue.heat 21⟩, ⟨421200, SpValue.heat 16⟩⟩ ∧
    (∃ oT iT dT spT oN iN dN spN,
      (oT = -1 ∨ oT = 0) ∧
      (oN = 0 ∨ oN = 1) ∧
      sched7.get? ((((weekday 4) : Int) + oT) % 7).toNat = some dT ∧
      pyGet dT.switchpoints iT = some spT ∧
      (⟨⟨370800, SpValue.heat 21⟩, ⟨421200, SpValue.heat 16⟩⟩ : Setpoints).thisSp =
        ⟨dtEvoToAware ((4 + oT) * 86400 + spT.timeOfDay) 3600, spT.value⟩ ∧
      sched7.get? ((((weekday 4) : Int) + oN) % 7).toNat = some dN ∧
      pyGet dN.switchpoints iN = some spN ∧
      (⟨⟨370800, SpValue.heat 21⟩, ⟨421200, SpValue.heat 16⟩⟩ : Setpoints).nextSp =
        ⟨dtEvoToAware ((4 + oN) * 86400 + spN.timeOfDay) 3600, spN.value⟩) :=
  ⟨by decide, c6_offset_instants sched7 ⟨4, 32400⟩ 3600 _ (by decide)⟩
